import Mathlib

/-!
Verification of the DepMap correlation-analysis notebook
(`notebooks/DepMap Analysis - old.ipynb`).

The notebook is a linear pandas pipeline:

1. load a CSV of CERES gene-essentiality scores and transpose it
   so that columns are genes;
2. compute (or load from an HDF cache, controlled by a manual
   `recalculate` flag) the gene-by-gene Pearson correlation matrix;
3. unstack the matrix into a series of ((gene_i, gene_j), value)
   entries, drop entries equal to 1.0, keep entries with absolute
   value above 0.5, and sort the absolute values descending;
4. read gene-name lists from text files; the metabolic list is
   stripped, uppercased and intersected with the data columns;
5. subset the filtered correlation series by the metabolic genes
   (a pandas lookup on the first index level).

Gene labels and file lines are modelled as lists of character
codes; correlation values in the pair filter are modelled as
rationals; the Pearson computation is modelled over the reals.
-/

namespace DepMap

/-- Gene labels, cell-line labels and text-file lines are strings,
modelled as lists of character codes. -/
abbrev Str := List ℕ

/-! ## Pair filter (notebook cell 3)

```
corr_list = corr.unstack()
large_corr = corr_list[corr_list != 1.0]
large_corr = large_corr[large_corr.abs() > 0.5]
sort_corrs = large_corr.abs().sort_values(ascending=False)
```

`corr.unstack()` turns the labelled square matrix into a series
indexed by (column label, row label) with value `corr.loc[row, col]`,
enumerating columns in the outer loop. `sort_values` sorts the
values descending; pandas does not guarantee tie order, and neither
do the claims, so an insertion sort stands in for it. -/

/-- `Series.abs()` on a rational value. -/
def ratAbs (q : ℚ) : ℚ := if q < 0 then -q else q

/-- `corr.unstack()`: all ((column, row), value) entries of a labelled
square matrix, columns in the outer loop. -/
def corrList {L : Type} (labels : List L) (M : L → L → ℚ) :
    List ((L × L) × ℚ) :=
  labels.flatMap (fun c => labels.map (fun r => ((c, r), M r c)))

/-- `large_corr`: the unstacked series restricted to values that are
not exactly 1.0 and have absolute value strictly above 0.5. -/
def largeCorr {L : Type} (labels : List L) (M : L → L → ℚ) :
    List ((L × L) × ℚ) :=
  ((corrList labels M).filter (fun e => decide (e.2 ≠ 1))).filter
    (fun e => decide (mkRat 1 2 < ratAbs e.2))

/-- Insert an entry into a list that is sorted by descending value. -/
def insertDesc {L : Type} (x : (L × L) × ℚ) :
    List ((L × L) × ℚ) → List ((L × L) × ℚ)
  | [] => [x]
  | y :: ys => if x.2 ≤ y.2 then y :: insertDesc x ys else x :: y :: ys

/-- Sort entries by descending value (insertion sort, standing in for
`sort_values(ascending=False)`). -/
def sortDesc {L : Type} : List ((L × L) × ℚ) → List ((L × L) × ℚ)
  | [] => []
  | x :: xs => insertDesc x (sortDesc xs)

/-- `sort_corrs = large_corr.abs().sort_values(ascending=False)`:
take absolute values of the filtered series and sort descending. -/
def sortCorrs {L : Type} (labels : List L) (M : L → L → ℚ) :
    List ((L × L) × ℚ) :=
  sortDesc ((largeCorr labels M).map (fun e => (e.1, ratAbs e.2)))

/-! ## Gene-list reading (notebook cell 4)

```
with open('prior_genes.txt', 'rt') as f:
    prior_genes = [line.strip() for line in f.readlines()]
metab_genes = []
with open('metabolic_genes.txt', 'rt') as f:
    for line in f.readlines():
        gene_name = line.strip().upper()
        if gene_name in data:
            metab_genes.append(gene_name)
```

Strings are lists of character codes; `strip` and `upper` are
modelled on the ASCII fragment, which is what `str.strip()` and
`str.upper()` do on ASCII gene symbols. `gene_name in data` tests
membership among the column labels of the data frame. -/

/-- A character code is ASCII whitespace (the characters that
`str.strip()` removes, restricted to ASCII). -/
def isSpaceChar (c : ℕ) : Bool :=
  c = 32 || c = 9 || c = 10 || c = 13 || c = 11 || c = 12

/-- `line.strip()`: remove leading and trailing whitespace. -/
def pyStrip (s : Str) : Str :=
  ((s.dropWhile isSpaceChar).reverse.dropWhile isSpaceChar).reverse

/-- One character of `str.upper()`: lowercase ASCII letters are
shifted to the corresponding uppercase letter. -/
def upperChar (c : ℕ) : ℕ := if 97 ≤ c ∧ c ≤ 122 then c - 32 else c

/-- `str.upper()` maps every character through `upperChar`. -/
def pyUpper (s : Str) : Str := s.map upperChar

/-- The `metab_genes` loop: strip and uppercase each line of the
metabolic gene file, keeping the names that are columns of the
loaded data matrix. -/
def metabGenes (lines : List Str) (cols : List Str) : List Str :=
  (lines.map (fun l => pyUpper (pyStrip l))).filter
    (fun g => decide (g ∈ cols))

/-- The `prior_genes` list comprehension: strip each line. -/
def priorGenes (lines : List Str) : List Str := lines.map pyStrip

/-! ## Series subsetting by gene list (notebook cell 5)

`prior_corrs = large_corr[metab_genes]`: indexing a series whose
index is a (gene, gene) MultiIndex with a list of labels selects,
for each listed label in turn, the entries whose first index level
equals that label. -/

/-- `series[genes]` on a series with a two-level index: for each
listed gene, the entries whose first index level is that gene. -/
def seriesGetList (l : List ((Str × Str) × ℚ)) (genes : List Str) :
    List ((Str × Str) × ℚ) :=
  genes.flatMap (fun g => l.filter (fun e => decide (e.1.1 = g)))

/-! ## Loader and Pearson correlation (notebook cells 1 and 2)

```
data = pd.read_csv('portal-Avana-2018-06-08.csv', index_col=0, header=0)
data = data.transpose()
...
corr = data.corr()
```

A loaded table is a labelled real matrix. `DataFrame.corr()`
computes the Pearson correlation between every pair of columns and
returns a square data frame whose index and columns are both the
column labels of the input. The 1/(n-1) normalisation factors of
covariance and standard deviation cancel in the Pearson quotient,
so the embedding uses the unnormalised sums. -/

/-- A labelled numeric table (a loaded data frame):
`entry r c` is the cell in row `r`, column `c`. -/
structure Table where
  rows : List Str
  cols : List Str
  entry : Str → Str → ℝ

/-- `DataFrame.transpose()`. -/
def Table.transpose (t : Table) : Table :=
  ⟨t.cols, t.rows, fun r c => t.entry c r⟩

/-- The loader: read the CSV and transpose it, so that columns are
genes and rows are cell lines. -/
def loadData (raw : Table) : Table := raw.transpose

/-- Mean of a column over the rows of the table. -/
noncomputable def colMean (t : Table) (g : Str) : ℝ :=
  (t.rows.map (fun r => t.entry r g)).sum / t.rows.length

/-- Unnormalised covariance of two columns: the sum over rows of the
products of deviations from the column means. -/
noncomputable def colCov (t : Table) (g h : Str) : ℝ :=
  (t.rows.map
    (fun r => (t.entry r g - colMean t g) * (t.entry r h - colMean t h))).sum

/-- Pearson correlation of two columns. -/
noncomputable def pearson (t : Table) (g h : Str) : ℝ :=
  colCov t g h / (Real.sqrt (colCov t g g) * Real.sqrt (colCov t h h))

/-- A correlation data frame: a labelled square real matrix with an
index axis and a column axis. -/
structure CorrDF where
  idx : List Str
  cols : List Str
  entry : Str → Str → ℝ

/-- `data.corr()`: the gene-by-gene Pearson correlation matrix; both
axes carry the column labels of `data`. -/
noncomputable def Table.corr (t : Table) : CorrDF :=
  ⟨t.cols, t.cols, fun g h => pearson t g h⟩

/-! ## HDF cache (notebook cell 2)

```
recalculate = False
if recalculate:
    corr = data.corr()
    corr.to_hdf('correlations.h5', 'correlations')
else:
    corr = pd.read_hdf('correlations.h5', 'correlations')
```
-/

/-- Modelled from the spec: the HDF5 cache file, "a binary tabular
store holding the precomputed correlation matrix under a fixed key
name"; the store itself is a pandas/PyTables artifact whose code is
not part of this repository, so it is modelled as a mapping from key
names to stored matrices. -/
def HStore := String → Option CorrDF

/-- `corr.to_hdf(file, key)`: store the matrix under the key. -/
def to_hdf (s : HStore) (k : String) (v : CorrDF) : HStore :=
  fun q => if q = k then some v else s q

/-- `pd.read_hdf(file, key)`: return the matrix stored under the
key, or fail with an error naming the missing item. -/
def read_hdf (s : HStore) (k : String) : Except String CorrDF :=
  match s k with
  | some v => Except.ok v
  | none => Except.error k

/-- Reading an optional file content: a present file yields its
content, a missing file is an uncaught error naming the file. -/
def readFile {α : Type} (fname : String) (content : Option α) :
    Except String α :=
  match content with
  | some v => Except.ok v
  | none => Except.error fname

/-- The correlation-cache cell: when `recalculate` is true, compute
the correlation matrix from the data and write it to disk; when it
is false, read the cached matrix from disk (an uncaught error if it
is absent). Returns the matrix together with the disk content after
the cell. -/
noncomputable def corrCacheStep (recalculate : Bool) (data : Table)
    (disk : Option CorrDF) : Except String (CorrDF × Option CorrDF) :=
  if recalculate then
    Except.ok (data.corr, some data.corr)
  else
    (readFile "correlations.h5" disk).map (fun c => (c, disk))

/-! ## The whole run (notebook cells 1 to 4) -/

/-- The files the run reads: the CSV of CERES scores, the
correlations key of the HDF cache, and the two gene-list text files.
`none` models a missing file. -/
structure FS where
  csv : Option Table
  h5 : Option CorrDF
  priorTxt : Option (List Str)
  metabTxt : Option (List Str)

/-- The run, cell by cell: load and transpose the CSV, obtain the
correlation matrix through the cache, read and strip the prior gene
list, read, strip, uppercase and column-filter the metabolic gene
list. Every read propagates a missing file as an error. -/
noncomputable def runPipeline (fs : FS) (recalculate : Bool) :
    Except String (Table × CorrDF × List Str × List Str) := do
  let raw ← readFile "portal-Avana-2018-06-08.csv" fs.csv
  let data := loadData raw
  let cached ← corrCacheStep recalculate data fs.h5
  let priorLines ← readFile "prior_genes.txt" fs.priorTxt
  let prior := priorGenes priorLines
  let metabLines ← readFile "metabolic_genes.txt" fs.metabTxt
  let metab := metabGenes metabLines data.cols
  pure (data, cached.1, prior, metab)

/-! ## Concrete inputs used by witnesses and counterexamples -/

/-- A 3-by-3 symmetric correlation matrix over the gene labels
0, 1, 2 with off-diagonal correlations 3/5, 1/5 and -7/10. -/
def exM : ℕ → ℕ → ℚ
  | 0, 0 => 1 | 0, 1 => mkRat 3 5 | 0, 2 => mkRat 1 5
  | 1, 0 => mkRat 3 5 | 1, 1 => 1 | 1, 2 => mkRat (-7) 10
  | 2, 0 => mkRat 1 5 | 2, 1 => mkRat (-7) 10 | 2, 2 => 1
  | _, _ => 0

/-- Gene label A. -/
def strA : Str := [65]

/-- Gene label B. -/
def strB : Str := [66]

/-- Gene label C. -/
def strC : Str := [67]

/-- The worked 3-by-3 example over genes A, B, C with correlations
A-B = 0.6, A-C = 0.2 and B-C = -0.7 (diagonal 1.0). -/
def exM3 : Str → Str → ℚ := fun i j =>
  if i = j then 1
  else if (i = strA ∧ j = strB) ∨ (i = strB ∧ j = strA) then mkRat 3 5
  else if (i = strA ∧ j = strC) ∨ (i = strC ∧ j = strA) then mkRat 1 5
  else if (i = strB ∧ j = strC) ∨ (i = strC ∧ j = strB) then mkRat (-7) 10
  else 0

/-- The all-ones 2-by-2 correlation matrix: two distinct, perfectly
correlated genes. -/
def onesM : ℕ → ℕ → ℚ := fun _ _ => 1

/-- The string "kras" as character codes. -/
def krasLower : Str := [107, 114, 97, 115]

/-- The string "KRAS" as character codes. -/
def krasUpper : Str := [75, 82, 65, 83]

/-- The gene label "G". -/
def strG : Str := [71]

/-- The cell-line label "R1". -/
def strR1 : Str := [82, 49]

/-- The cell-line label "R2". -/
def strR2 : Str := [82, 50]

/-- A raw table with one gene row G and two cell-line columns, with
scores 0 and 2: after transposing, column G has nonzero variance. -/
def rawW : Table :=
  ⟨[strG], [strR1, strR2], fun _ c => if c = strR1 then 0 else 2⟩

/-- A raw table with one gene row G and one cell-line column, score
0: after transposing, column G is constant. -/
def rawConst : Table := ⟨[strG], [strR1], fun _ _ => 0⟩

/-- A data table with one gene column G and no rows, used to drive
the cache step. -/
def dataCx : Table := ⟨[], [strG], fun _ _ => 0⟩

/-- A stored correlation matrix with empty axes, different from any
correlation matrix computed from `dataCx`. -/
def mCx : CorrDF := ⟨[], [], fun _ _ => 0⟩

/-- An empty table, used as a present CSV content. -/
def tW : Table := ⟨[], [], fun _ _ => 0⟩

/-- An empty correlation matrix, used as a present cache content. -/
def cW : CorrDF := ⟨[], [], fun _ _ => 0⟩

/-- A file system with every file missing. -/
def fsA : FS := ⟨none, none, none, none⟩

/-- A file system with only the CSV present. -/
def fsB : FS := ⟨some tW, none, none, none⟩

/-- A file system with the CSV and the cache present. -/
def fsC : FS := ⟨some tW, some cW, none, none⟩

/-- A file system with only the metabolic gene list missing. -/
def fsD : FS := ⟨some tW, some cW, some [], none⟩

/-! ## Helper lemmas -/

/-- `ratAbs` agrees with the mathematical absolute value. -/
theorem ratAbs_eq_abs (q : ℚ) : ratAbs q = |q| := by
  unfold ratAbs
  rcases lt_or_le q 0 with h | h
  · rw [if_pos h, abs_of_neg h]
  · rw [if_neg (not_lt.mpr h), abs_of_nonneg h]

theorem mem_insertDesc {L : Type} (x e : (L × L) × ℚ)
    (l : List ((L × L) × ℚ)) :
    e ∈ insertDesc x l ↔ e = x ∨ e ∈ l := by
  induction l with
  | nil => simp [insertDesc]
  | cons y ys ih =>
    rw [insertDesc]
    by_cases h : x.2 ≤ y.2
    · rw [if_pos h]
      simp only [List.mem_cons, ih]
      tauto
    · rw [if_neg h]
      simp only [List.mem_cons]

theorem mem_sortDesc {L : Type} (e : (L × L) × ℚ)
    (l : List ((L × L) × ℚ)) :
    e ∈ sortDesc l ↔ e ∈ l := by
  induction l with
  | nil => simp [sortDesc]
  | cons x xs ih =>
    rw [sortDesc, mem_insertDesc]
    simp [ih]

theorem sorted_insertDesc {L : Type} (x : (L × L) × ℚ)
    (l : List ((L × L) × ℚ))
    (h : l.Pairwise (fun a b => b.2 ≤ a.2)) :
    (insertDesc x l).Pairwise (fun a b => b.2 ≤ a.2) := by
  induction l with
  | nil => simp [insertDesc]
  | cons y ys ih =>
    rw [List.pairwise_cons] at h
    rw [insertDesc]
    by_cases hxy : x.2 ≤ y.2
    · rw [if_pos hxy]
      rw [List.pairwise_cons]
      refine ⟨fun z hz => ?_, ih h.2⟩
      rcases (mem_insertDesc x z ys).mp hz with hzx | hzy
      · rw [hzx]; exact hxy
      · exact h.1 z hzy
    · rw [if_neg hxy]
      rw [List.pairwise_cons]
      refine ⟨fun z hz => ?_, List.Pairwise.cons h.1 h.2⟩
      rcases List.mem_cons.mp hz with hzy | hzys
      · rw [hzy]; exact le_of_not_le hxy
      · exact le_trans (h.1 z hzys) (le_of_not_le hxy)

theorem sorted_sortDesc {L : Type} (l : List ((L × L) × ℚ)) :
    (sortDesc l).Pairwise (fun a b => b.2 ≤ a.2) := by
  induction l with
  | nil => simp [sortDesc]
  | cons x xs ih => exact sorted_insertDesc x (sortDesc xs) ih

theorem mem_corrList {L : Type} (labels : List L) (M : L → L → ℚ)
    (e : (L × L) × ℚ) :
    e ∈ corrList labels M ↔
      ∃ c ∈ labels, ∃ r ∈ labels, e = ((c, r), M r c) := by
  unfold corrList
  simp only [List.mem_flatMap, List.mem_map]
  constructor
  · rintro ⟨c, hc, r, hr, rfl⟩
    exact ⟨c, hc, r, hr, rfl⟩
  · rintro ⟨c, hc, r, hr, rfl⟩
    exact ⟨c, hc, r, hr, rfl⟩

theorem mem_largeCorr {L : Type} (labels : List L) (M : L → L → ℚ)
    (e : (L × L) × ℚ) :
    e ∈ largeCorr labels M ↔
      e ∈ corrList labels M ∧ e.2 ≠ 1 ∧ mkRat 1 2 < ratAbs e.2 := by
  unfold largeCorr
  simp only [List.mem_filter, decide_eq_true_eq]
  tauto

theorem mem_sortCorrs {L : Type} (labels : List L) (M : L → L → ℚ)
    (e : (L × L) × ℚ) :
    e ∈ sortCorrs labels M ↔
      ∃ c ∈ labels, ∃ r ∈ labels,
        M r c ≠ 1 ∧ mkRat 1 2 < ratAbs (M r c) ∧
        e = ((c, r), ratAbs (M r c)) := by
  unfold sortCorrs
  rw [mem_sortDesc]
  simp only [List.mem_map, mem_largeCorr, mem_corrList]
  constructor
  · rintro ⟨a, ⟨⟨c, hc, r, hr, rfl⟩, h1, h2⟩, rfl⟩
    exact ⟨c, hc, r, hr, h1, h2, rfl⟩
  · rintro ⟨c, hc, r, hr, h1, h2, rfl⟩
    exact ⟨((c, r), M r c), ⟨⟨c, hc, r, hr, rfl⟩, h1, h2⟩, rfl⟩

theorem colCov_symm (t : Table) (g h : Str) :
    colCov t g h = colCov t h g := by
  unfold colCov
  congr 1
  have : (fun r => (t.entry r g - colMean t g) * (t.entry r h - colMean t h)) =
      (fun r => (t.entry r h - colMean t h) * (t.entry r g - colMean t g)) := by
    funext r
    exact mul_comm _ _
  rw [this]

theorem colCov_self_nonneg (t : Table) (g : Str) : 0 ≤ colCov t g g := by
  unfold colCov
  apply List.sum_nonneg
  intro x hx
  rcases List.mem_map.mp hx with ⟨r, hr, rfl⟩
  exact mul_self_nonneg _

theorem pearson_symm (t : Table) (g h : Str) :
    pearson t g h = pearson t h g := by
  unfold pearson
  rw [colCov_symm t g h, mul_comm]

theorem pearson_self (t : Table) (g : Str) (h : colCov t g g ≠ 0) :
    pearson t g g = 1 := by
  unfold pearson
  rw [Real.mul_self_sqrt (colCov_self_nonneg t g)]
  exact div_self h

theorem upperChar_not_lowercase (c : ℕ) :
    ¬(97 ≤ upperChar c ∧ upperChar c ≤ 122) := by
  unfold upperChar
  split
  · rename_i h
    omega
  · rename_i h
    omega

/-! ## Claim theorems -/

/-- C1 (amended): for every symmetric labelled correlation matrix,
the output of the pair filter consists of exactly the ordered pairs
(label_i, label_j) with label_i distinct from label_j, correlation
not exactly equal to 1.0, and absolute correlation strictly above
0.5 — both orientations present, no deduplication — each reported
with the absolute value of its correlation and sorted descending by
that absolute value. (The original claim omitted the condition
"correlation not exactly equal to 1.0": the source filters on the
value `corr_list != 1.0`, not on the labels, so a pair of distinct
but perfectly correlated genes is dropped.) -/
theorem C1_pair_filter_characterization {L : Type} (labels : List L)
    (M : L → L → ℚ)
    (hsymm : ∀ i ∈ labels, ∀ j ∈ labels, M i j = M j i)
    (hdiag : ∀ i ∈ labels, M i i = 1) :
    (∀ i j : L, ∀ v : ℚ,
      ((i, j), v) ∈ sortCorrs labels M ↔
        (i ∈ labels ∧ j ∈ labels ∧ i ≠ j ∧ M i j ≠ 1 ∧
         mkRat 1 2 < ratAbs (M i j) ∧ v = ratAbs (M i j))) ∧
    (∀ i j : L, ∀ v : ℚ,
      ((i, j), v) ∈ sortCorrs labels M → ((j, i), v) ∈ sortCorrs labels M) ∧
    (sortCorrs labels M).Pairwise (fun a b => b.2 ≤ a.2) := by
  have hmem : ∀ i j : L, ∀ v : ℚ,
      ((i, j), v) ∈ sortCorrs labels M ↔
        (i ∈ labels ∧ j ∈ labels ∧ i ≠ j ∧ M i j ≠ 1 ∧
         mkRat 1 2 < ratAbs (M i j) ∧ v = ratAbs (M i j)) := by
    intro i j v
    rw [mem_sortCorrs]
    constructor
    · rintro ⟨c, hc, r, hr, h1, h2, heq⟩
      have hic : i = c := congrArg (fun e => e.1.1) heq
      have hjr : j = r := congrArg (fun e => e.1.2) heq
      have hv : v = ratAbs (M r c) := congrArg (fun e => e.2) heq
      subst hic
      subst hjr
      have hsij : M j i = M i j := hsymm j hr i hc
      refine ⟨hc, hr, ?_, ?_, ?_, ?_⟩
      · intro hij
        subst hij
        exact h1 (hdiag i hc)
      · rw [← hsij]; exact h1
      · rw [← hsij]; exact h2
      · rw [← hsij]; exact hv
    · rintro ⟨hi, hj, hij, h1, h2, hv⟩
      refine ⟨i, hi, j, hj, ?_, ?_, ?_⟩
      · rw [hsymm j hj i hi]; exact h1
      · rw [hsymm j hj i hi]; exact h2
      · rw [hsymm j hj i hi, hv]
  refine ⟨hmem, ?_, ?_⟩
  · intro i j v h
    rcases (hmem i j v).mp h with ⟨hi, hj, hij, h1, h2, hv⟩
    refine (hmem j i v).mpr ⟨hj, hi, Ne.symm hij, ?_, ?_, ?_⟩
    · rw [hsymm j hj i hi]; exact h1
    · rw [hsymm j hj i hi]; exact h2
    · rw [hsymm j hj i hi]; exact hv
  · unfold sortCorrs
    exact sorted_sortDesc _

/-- C1 witness: the characterization applied to the concrete
3-by-3 correlation matrix `exM`: the pair (1, 2) with absolute
correlation 7/10 is in the output, and so is its mirror image. -/
theorem C1_pair_filter_characterization_witness :
    ((1, 2), mkRat 7 10) ∈ sortCorrs [0, 1, 2] exM ∧
    ((2, 1), mkRat 7 10) ∈ sortCorrs [0, 1, 2] exM := by
  have h := C1_pair_filter_characterization [0, 1, 2] exM
    (by decide) (by decide)
  have h1 : ((1, 2), mkRat 7 10) ∈ sortCorrs [0, 1, 2] exM :=
    (h.1 1 2 (mkRat 7 10)).mpr (by decide)
  exact ⟨h1, h.2.1 1 2 (mkRat 7 10) h1⟩

/-- C1 counterexample: the all-ones 2-by-2 matrix is a symmetric
labelled correlation matrix; the pair (0, 1) has distinct labels and
absolute correlation 1 > 0.5, yet the output of the pair filter is
empty, because the source drops every entry whose value is exactly
1.0. -/
theorem C1_pair_filter_counterexample :
    (∀ i ∈ [0, 1], ∀ j ∈ [0, 1], onesM i j = onesM j i) ∧
    (∀ i ∈ [0, 1], onesM i i = 1) ∧
    (0 : ℕ) ≠ 1 ∧ mkRat 1 2 < ratAbs (onesM 0 1) ∧
    sortCorrs [0, 1] onesM = [] := by decide

/-- C2: for every input matrix that is a correlation matrix
(square by construction, symmetric, diagonal 1.0), the pair filter
never returns a pair whose absolute correlation is at most 0.5 or
whose two labels are identical. -/
theorem C2_pair_filter_threshold {L : Type} (labels : List L)
    (M : L → L → ℚ)
    (hsymm : ∀ i ∈ labels, ∀ j ∈ labels, M i j = M j i)
    (hdiag : ∀ i ∈ labels, M i i = 1) :
    ∀ e ∈ sortCorrs labels M,
      ¬(ratAbs (M e.1.1 e.1.2) ≤ mkRat 1 2) ∧ e.1.1 ≠ e.1.2 := by
  intro e he
  rcases (mem_sortCorrs labels M e).mp he with ⟨c, hc, r, hr, h1, h2, heq⟩
  subst heq
  have hsij : M c r = M r c := hsymm c hc r hr
  constructor
  · simp only [hsij]
    exact not_le.mpr h2
  · intro hcr
    simp only at hcr
    subst hcr
    exact h1 (hdiag c hc)

/-- C2 witness: on the concrete correlation matrix `exM`, the entry
((1, 2), 7/10) of the output has absolute correlation above 0.5 and
distinct labels. -/
theorem C2_pair_filter_threshold_witness :
    ¬(ratAbs (exM 1 2) ≤ mkRat 1 2) ∧ (1 : ℕ) ≠ 2 :=
  C2_pair_filter_threshold [0, 1, 2] exM (by decide) (by decide)
    ((1, 2), mkRat 7 10) (by decide)

/-- C3: for the 3-by-3 correlation matrix over genes A, B, C with
A-B = 0.6, A-C = 0.2, B-C = -0.7, the filtered pair list contains
(B, C, 0.7) and (A, B, 0.6), with (B, C, 0.7) ordered before
(A, B, 0.6); it contains no pair involving A and C together and no
pair with identical labels. -/
theorem C3_example_3x3 :
    ((strB, strC), mkRat 7 10) ∈ sortCorrs [strA, strB, strC] exM3 ∧
    ((strA, strB), mkRat 3 5) ∈ sortCorrs [strA, strB, strC] exM3 ∧
    List.indexOf ((strB, strC), mkRat 7 10)
        (sortCorrs [strA, strB, strC] exM3) <
      List.indexOf ((strA, strB), mkRat 3 5)
        (sortCorrs [strA, strB, strC] exM3) ∧
    (sortCorrs [strA, strB, strC] exM3).all
      (fun e => decide (¬((e.1.1 = strA ∧ e.1.2 = strC) ∨
        (e.1.1 = strC ∧ e.1.2 = strA)))) = true ∧
    (sortCorrs [strA, strB, strC] exM3).all
      (fun e => decide (e.1.1 ≠ e.1.2)) = true := by decide

/-- C4 (amended): for every essentiality matrix whose transposed
gene columns all have nonzero variance, the derived Pearson
correlation matrix is square (its index axis equals its column
axis), symmetric, and has every diagonal entry equal to 1.0. (The
original claim quantified over every input; a constant gene column
makes the variance zero and the diagonal Pearson quotient is then
not 1.0 — pandas produces NaN there — so the nonzero-variance
hypothesis is required.) -/
theorem C4_corr_square_symmetric_diag (raw : Table)
    (hvar : ∀ g ∈ (loadData raw).cols, colCov (loadData raw) g g ≠ 0) :
    ((loadData raw).corr).idx = ((loadData raw).corr).cols ∧
    (∀ g h : Str,
      ((loadData raw).corr).entry g h = ((loadData raw).corr).entry h g) ∧
    (∀ g ∈ ((loadData raw).corr).idx, ((loadData raw).corr).entry g g = 1) :=
  ⟨rfl, fun g h => pearson_symm _ g h,
    fun g hg => pearson_self _ g (hvar g hg)⟩

/-- C4 witness: the one-gene, two-cell-line table with scores 0 and
2 has a nonzero column variance, and its correlation matrix has
diagonal entry 1 at that gene. -/
theorem C4_corr_square_symmetric_diag_witness :
    colCov (loadData rawW) strG strG ≠ 0 ∧
    ((loadData rawW).corr).entry strG strG = 1 := by
  have hmean : colMean (loadData rawW) strG = 1 := by
    unfold colMean
    norm_num [loadData, Table.transpose, rawW, strR1, strR2]
  have hcov : colCov (loadData rawW) strG strG = 2 := by
    unfold colCov
    rw [hmean]
    norm_num [loadData, Table.transpose, rawW, strR1, strR2]
  have hvar : ∀ g ∈ (loadData rawW).cols, colCov (loadData rawW) g g ≠ 0 := by
    intro g hg
    have hgG : g = strG := by
      simpa [loadData, Table.transpose, rawW] using hg
    subst hgG
    rw [hcov]
    norm_num
  refine ⟨by rw [hcov]; norm_num, ?_⟩
  exact (C4_corr_square_symmetric_diag rawW hvar).2.2 strG
    (by simp [loadData, Table.transpose, Table.corr, rawW])

/-- C4 counterexample: the one-gene, one-cell-line table with score
0 has a constant gene column; the gene is on the index axis of the
derived correlation matrix, yet its diagonal entry is not 1.0 (the
Pearson quotient degenerates; pandas produces NaN there). -/
theorem C4_diag_counterexample :
    strG ∈ ((loadData rawConst).corr).idx ∧
    ((loadData rawConst).corr).entry strG strG ≠ 1 := by
  constructor
  · simp [loadData, Table.transpose, Table.corr, rawConst]
  · have hcov : colCov (loadData rawConst) strG strG = 0 := by
      simp [colCov, colMean, loadData, Table.transpose, rawConst]
    have : ((loadData rawConst).corr).entry strG strG = 0 := by
      show pearson (loadData rawConst) strG strG = 0
      unfold pearson
      rw [hcov]
      simp
    rw [this]
    norm_num

/-- C5 (amended): every gene name returned by the gene allow-list
subsetter is the uppercased, whitespace-stripped form of some
member of the input list read from the gene list file, and is
present as a column label of the loaded data matrix. (The original
claim said the returned name itself is a member of the input list;
the source uppercases each line first, so a lowercase input line
produces a returned name that is not in the input list.) -/
theorem C5_metabGenes_members (lines cols : List Str) :
    ∀ g ∈ metabGenes lines cols,
      (∃ l ∈ lines, g = pyUpper (pyStrip l)) ∧ g ∈ cols := by
  intro g hg
  unfold metabGenes at hg
  rw [List.mem_filter] at hg
  rcases hg with ⟨hmap, hcols⟩
  rcases List.mem_map.mp hmap with ⟨l, hl, rfl⟩
  exact ⟨⟨l, hl, rfl⟩, of_decide_eq_true hcols⟩

/-- C5 witness: with input list ["kras"] and matrix columns
["KRAS"], the returned name "KRAS" is the uppercased form of the
input line "kras" and a column of the matrix. -/
theorem C5_metabGenes_members_witness :
    (∃ l ∈ [krasLower], (krasUpper : Str) = pyUpper (pyStrip l)) ∧
    (krasUpper : Str) ∈ [krasUpper] :=
  C5_metabGenes_members [krasLower] [krasUpper] krasUpper (by decide)

/-- C5 counterexample: with input list ["kras"] and matrix columns
["KRAS"], the subsetter returns "KRAS", which is not a member of
the input list read from the gene list file. -/
theorem C5_metabGenes_counterexample :
    krasUpper ∈ metabGenes [krasLower] [krasUpper] ∧
    krasUpper ∉ [krasLower] := by decide

/-- C6 (amended): the correlation cache loads the matrix from disk
exactly when the manual `recalculate` flag is false — aborting with
an error if no prior result exists on disk — and computes it from
the data table and writes it to disk when the flag is true. (The
original claim said the branch is decided by whether a prior result
exists on disk; the source branches only on the hardcoded flag.) -/
theorem C6_corrCacheStep_flag (data : Table) (disk : Option CorrDF)
    (c : CorrDF) :
    corrCacheStep true data disk = Except.ok (data.corr, some data.corr) ∧
    corrCacheStep false data (some c) = Except.ok (c, some c) ∧
    corrCacheStep false data none = Except.error "correlations.h5" :=
  ⟨rfl, rfl, rfl⟩

/-- C6 counterexample: with the flag set to true and a prior result
present on disk, the cache step returns the freshly computed matrix,
which differs from the stored one — so loading does not happen
"exactly when a prior result exists on disk". -/
theorem C6_corrCacheStep_counterexample :
    (some mCx).isSome = true ∧
    corrCacheStep true dataCx (some mCx) =
      Except.ok (dataCx.corr, some dataCx.corr) ∧
    dataCx.corr ≠ mCx := by
  refine ⟨rfl, rfl, fun h => ?_⟩
  have hidx := congrArg CorrDF.idx h
  simp [Table.corr, dataCx, mCx, strG] at hidx

/-- C7: writing a correlation matrix to the cache store under the
fixed key name and reading it back yields the original matrix (the
store is modelled exactly, so "within floating-point tolerance"
specialises to equality). -/
theorem C7_hdf_roundtrip (s : HStore) (v : CorrDF) :
    read_hdf (to_hdf s "correlations" v) "correlations" = Except.ok v := by
  unfold read_hdf to_hdf
  simp

/-- C8: every file-reading operation of the run — the CSV loader,
the correlation-cache reader (taken when the flag is false), and the
two gene-list reads — propagates a missing file as an error that
aborts the whole run; no step catches or converts it. -/
theorem C8_pipeline_read_errors (fs : FS) (recalculate : Bool) :
    (fs.csv = none →
      runPipeline fs recalculate =
        Except.error "portal-Avana-2018-06-08.csv") ∧
    (∀ t, fs.csv = some t → recalculate = false → fs.h5 = none →
      runPipeline fs recalculate = Except.error "correlations.h5") ∧
    (∀ t c, fs.csv = some t → fs.h5 = some c → fs.priorTxt = none →
      runPipeline fs recalculate = Except.error "prior_genes.txt") ∧
    (∀ t c p, fs.csv = some t → fs.h5 = some c → fs.priorTxt = some p →
      fs.metabTxt = none →
      runPipeline fs recalculate = Except.error "metabolic_genes.txt") := by
  refine ⟨?_, ?_, ?_, ?_⟩
  · intro h
    simp [runPipeline, readFile, h, bind, Except.bind]
  · intro t ht hrec hh5
    subst hrec
    simp [runPipeline, readFile, corrCacheStep, ht, hh5, bind, Except.bind,
      Except.map]
  · intro t c ht hh5 hp
    cases recalculate <;>
      simp [runPipeline, readFile, corrCacheStep, ht, hh5, hp, bind,
        Except.bind, Except.map]
  · intro t c p ht hh5 hp hm
    cases recalculate <;>
      simp [runPipeline, readFile, corrCacheStep, ht, hh5, hp, hm, bind,
        Except.bind, Except.map, pure, Except.pure]

/-- C8 witness: on four concrete file systems, each with the first
missing file at a different stage, the run aborts with the error
naming that file. -/
theorem C8_pipeline_read_errors_witness :
    runPipeline fsA false = Except.error "portal-Avana-2018-06-08.csv" ∧
    runPipeline fsB false = Except.error "correlations.h5" ∧
    runPipeline fsC false = Except.error "prior_genes.txt" ∧
    runPipeline fsD false = Except.error "metabolic_genes.txt" :=
  ⟨(C8_pipeline_read_errors fsA false).1 rfl,
   (C8_pipeline_read_errors fsB false).2.1 tW rfl rfl rfl,
   (C8_pipeline_read_errors fsC false).2.2.1 tW cW rfl rfl rfl,
   (C8_pipeline_read_errors fsD false).2.2.2 tW cW [] rfl rfl rfl rfl⟩

/-- C9: the gene-list subsetter uppercases each whitespace-stripped
line before testing column membership: every retained name is the
uppercased stripped form of some input line, every retained name
contains no lowercase ASCII letter, and any input line whose
uppercased stripped form is a column of the data matrix has that
form retained. -/
theorem C9_metabGenes_uppercases (lines cols : List Str) :
    (∀ g ∈ metabGenes lines cols,
      (∃ l ∈ lines, g = pyUpper (pyStrip l)) ∧
      ∀ c ∈ g, ¬(97 ≤ c ∧ c ≤ 122)) ∧
    (∀ l ∈ lines, pyUpper (pyStrip l) ∈ cols →
      pyUpper (pyStrip l) ∈ metabGenes lines cols) := by
  constructor
  · intro g hg
    unfold metabGenes at hg
    rw [List.mem_filter] at hg
    rcases List.mem_map.mp hg.1 with ⟨l, hl, rfl⟩
    refine ⟨⟨l, hl, rfl⟩, ?_⟩
    intro c hc
    rcases List.mem_map.mp hc with ⟨d, hd, rfl⟩
    exact upperChar_not_lowercase d
  · intro l hl hcols
    unfold metabGenes
    rw [List.mem_filter]
    exact ⟨List.mem_map.mpr ⟨l, hl, rfl⟩, decide_eq_true hcols⟩

/-- C9 witness: the lowercase line "kras", with "KRAS" a column of
the data matrix, has its uppercase form retained. -/
theorem C9_metabGenes_uppercases_witness :
    pyUpper (pyStrip krasLower) ∈ metabGenes [krasLower] [krasUpper] :=
  (C9_metabGenes_uppercases [krasLower] [krasUpper]).2 krasLower
    (by decide) (by decide)

/-- C10: subsetting the filtered correlation pair list by a gene
list selects on the first label of each pair only: a pair is
retained exactly when its first label is in the gene list, and a
pair whose second label is in the list but whose first label is not
is excluded. -/
theorem C10_seriesGetList_first_level (l : List ((Str × Str) × ℚ))
    (genes : List Str) :
    (∀ e, e ∈ seriesGetList l genes ↔ e ∈ l ∧ e.1.1 ∈ genes) ∧
    (∀ e ∈ l, e.1.2 ∈ genes → e.1.1 ∉ genes →
      e ∉ seriesGetList l genes) := by
  have hmem : ∀ e, e ∈ seriesGetList l genes ↔ e ∈ l ∧ e.1.1 ∈ genes := by
    intro e
    unfold seriesGetList
    rw [List.mem_flatMap]
    constructor
    · rintro ⟨g, hg, he⟩
      rw [List.mem_filter] at he
      have hfst := of_decide_eq_true he.2
      exact ⟨he.1, by rw [hfst]; exact hg⟩
    · rintro ⟨hel, hg⟩
      exact ⟨e.1.1, hg, List.mem_filter.mpr ⟨hel, decide_eq_true rfl⟩⟩
  exact ⟨hmem, fun e hel h2 h1 hin => h1 ((hmem e).mp hin).2⟩

/-- C10 witness: with metabolic gene list [B], the pair (A, B) — B
metabolic in second position, A not metabolic in first position —
is excluded from the subset. -/
theorem C10_seriesGetList_first_level_witness :
    ((strA, strB), (1 : ℚ)) ∉ seriesGetList [((strA, strB), 1)] [strB] :=
  (C10_seriesGetList_first_level [((strA, strB), 1)] [strB]).2
    ((strA, strB), 1) (by decide) (by decide) (by decide)

end DepMap
